import Mathlib

/-!
Verification of the core detection-routing logic of the `lara` AI service
(`src/apps/ai/main.py`): frame splitting, bounding-box remapping, label
classification, detector backend adapters, detection routing, and rolling
statistics.  Machine integers are modelled as `Nat`/`Int`, Python floats as
`ℚ`, images as row-major lists of grayscale intensities, and the OpenCV
primitives used by the thermal detector by their documented mathematical
meaning: binary thresholding, external contours of 8-connected foreground
regions obtained by Moore border following, contour area as the shoelace
(Green-formula) area of the traced contour polygon, bounding rectangles,
and region mean.
-/

namespace LaraAI

/-- `StreamType` enum from main.py, extended with `other` to stand for any
value that is not one of the three enum members (the dispatch in
`route_detection` has an explicit fallback branch for such values). -/
inductive StreamTypeArg
  | COLOR
  | THERMAL
  | SPLIT
  | other
deriving DecidableEq

/-- `SplitLayout` enum from main.py. -/
inductive SplitLayout
  | LEFT_RIGHT
  | TOP_BOTTOM
deriving DecidableEq

/-- `DetectionType` enum from main.py. -/
inductive DetectionType
  | SMOKE
  | FIRE
  | HOTSPOT
deriving DecidableEq

/-- `BoundingBox` pydantic model: integer pixel coordinates. -/
structure BoundingBox where
  x : Int
  y : Int
  width : Int
  height : Int
deriving DecidableEq

/-- `Detection` pydantic model.  Confidence is a Python float, modelled
as `ℚ`; `channel` is the optional sub-pipeline tag. -/
structure Detection where
  label : String
  confidence : ℚ
  boundingBox : BoundingBox
  detectionType : DetectionType
  channel : Option String
deriving DecidableEq

instance : Inhabited Detection :=
  ⟨{ label := "", confidence := 0, boundingBox := ⟨0, 0, 0, 0⟩
   , detectionType := .SMOKE, channel := none }⟩

/-- A frame: row-major grid of pixel intensities (`image.shape[:2]` =
(number of rows, length of a row)).  Multi-channel inputs are modelled
after their grayscale reduction, which is the only view the core logic
reads pixel data through. -/
abbrev Img := List (List Nat)

/-- Pixel lookup with numpy-slice-friendly default 0 (all accesses proved
about stay within bounds). -/
def pixAt (img : Img) (i j : Nat) : Nat := (img.getD i []).getD j 0

/-- Optional cell access: `some` value exactly when the position exists. -/
def cellAt (img : Img) (i j : Nat) : Option Nat :=
  img[i]? >>= fun row => row[j]?

/-- `height, width = image.shape[:2]` in main.py. -/
def imgHeight (img : Img) : Nat := img.length

/-- Width of the (rectangular) frame, read off the first row. -/
def imgWidth (img : Img) : Nat := (img.headD []).length

/-- `split_frame` from main.py: partition a frame into two halves at the
floor-division midpoint of the split axis.  Total on every input; 0/1-pixel
dimensions yield empty or near-empty halves, never an error. -/
def split_frame (image : Img) (layout : SplitLayout) : Img × Img :=
  let height := imgHeight image
  let width := imgWidth image
  match layout with
  | .LEFT_RIGHT =>
      let mid := width / 2
      (image.map fun row => row.take mid, image.map fun row => row.drop mid)
  | .TOP_BOTTOM =>
      let mid := height / 2
      (image.take mid, image.drop mid)

/-- Body of the loop of `remap_bounding_boxes` in main.py: build a fresh
box, offset it by the floor-division midpoint when the detection came from
the second half, and rebuild the detection with all other fields copied.
`original_shape` is `(height, width)`. -/
def remap_one (layout : SplitLayout) (is_second_half : Bool)
    (original_shape : Nat × Nat) (detection : Detection) : Detection :=
  let height := original_shape.1
  let width := original_shape.2
  let bbox := detection.boundingBox
  let new_bbox : BoundingBox :=
    match layout with
    | .LEFT_RIGHT =>
        if is_second_half then { bbox with x := bbox.x + ((width / 2 : Nat) : Int) } else bbox
    | .TOP_BOTTOM =>
        if is_second_half then { bbox with y := bbox.y + ((height / 2 : Nat) : Int) } else bbox
  { label := detection.label
  , confidence := detection.confidence
  , boundingBox := new_bbox
  , detectionType := detection.detectionType
  , channel := detection.channel }

/-- `remap_bounding_boxes` from main.py: map `remap_one` over the list,
returning a new list. -/
def remap_bounding_boxes (detections : List Detection) (layout : SplitLayout)
    (is_second_half : Bool) (original_shape : Nat × Nat) : List Detection :=
  detections.map (remap_one layout is_second_half original_shape)

/-- `remap_bounding_boxes` again, with Python's object semantics made
explicit to reason about mutation: detections live in a heap (a list of
cells addressed by index), the input is a list of addresses, and each loop
iteration reads a detection, allocates a fresh `BoundingBox`/`Detection`
(appended at the end of the heap; the only in-place writes in the source
target that fresh box), and appends the fresh address to the result
list. -/
def remap_bounding_boxes_heap (heap : List Detection) (addrs : List Nat)
    (layout : SplitLayout) (is_second_half : Bool) (original_shape : Nat × Nat) :
    List Detection × List Nat :=
  addrs.foldl
    (fun acc a =>
      let detection := acc.1.getD a default
      (acc.1 ++ [remap_one layout is_second_half original_shape detection],
       acc.2 ++ [acc.1.length]))
    (heap, [])

/-- Whether `needle` is a leading segment of `hay` (helper for the Python
`in` substring operator). -/
def leadEq : List Char → List Char → Bool
  | [], _ => true
  | _ :: _, [] => false
  | a :: as, b :: bs => a == b && leadEq as bs

/-- Whether `needle` occurs as a contiguous substring of `hay`: the Python
`needle in hay` operator on strings. -/
def hasSub (needle : List Char) : List Char → Bool
  | [] => leadEq needle []
  | c :: cs => leadEq needle (c :: cs) || hasSub needle cs

/-- Python `str.lower` on one character, on the ASCII range the YOLO class
names live in. -/
def charLower (c : Char) : Char :=
  if 65 ≤ c.toNat ∧ c.toNat ≤ 90 then Char.ofNat (c.toNat + 32) else c

/-- Python `label.lower()`, as a character list. -/
def lowerData (s : String) : List Char := s.data.map charLower

/-- `map_label_to_detection_type` from main.py: case-insensitive substring
dispatch with fixed priority (fire, smoke, hotspot/hot, default SMOKE). -/
def map_label_to_detection_type (label : String) : DetectionType :=
  let label_lower := lowerData label
  if hasSub "fire".data label_lower then .FIRE
  else if hasSub "smoke".data label_lower then .SMOKE
  else if hasSub "hotspot".data label_lower || hasSub "hot".data label_lower then .HOTSPOT
  else .SMOKE

/-- The classifier exactly as the spec words it (§4.3): contains "fire" →
FIRE; else "smoke" → SMOKE; else "hot" → HOTSPOT; else SMOKE.  Stated
separately so the source function can be proved to refine it. -/
def classifySpec (label : String) : DetectionType :=
  let label_lower := lowerData label
  if hasSub "fire".data label_lower then .FIRE
  else if hasSub "smoke".data label_lower then .SMOKE
  else if hasSub "hot".data label_lower then .HOTSPOT
  else .SMOKE

/-- One raw candidate box of a YOLO result: confidence, corner-format
coordinates, class id. -/
structure RawBox where
  conf : ℚ
  x1 : Int
  y1 : Int
  x2 : Int
  y2 : Int
  cls : Nat

/-- One YOLO `Results` object: its boxes (empty list models `boxes is
None`) and its class-name table. -/
structure RawResult where
  boxes : List RawBox
  names : Nat → String

/-- `format_detections` from main.py: take the first result, keep each box
whose confidence clears the threshold, and build a `Detection` with the
width/height form of the box, the classified label, and the caller's
channel tag. -/
def format_detections (results : List RawResult) (confidence_threshold : ℚ)
    (channel : Option String) : List Detection :=
  match results with
  | [] => []
  | result :: _ =>
      result.boxes.filterMap fun b =>
        if b.conf ≥ confidence_threshold then
          some { label := result.names b.cls
               , confidence := b.conf
               , boundingBox := { x := b.x1, y := b.y1
                                , width := b.x2 - b.x1, height := b.y2 - b.y1 }
               , detectionType := map_label_to_detection_type (result.names b.cls)
               , channel := channel }
        else none

/-- A pixel position `(row, column)`. -/
abbrev Pos := Nat × Nat

/-- `cv2.threshold(gray, threshold, 255, THRESH_BINARY)` foreground set, in
row-major order: positions whose intensity strictly exceeds the (float)
threshold, matching OpenCV's `dst = maxval if src > thresh else 0`. -/
def fgPixels (image : Img) (threshold : ℚ) : List Pos :=
  (List.range image.length).flatMap fun i =>
    (List.range ((image.getD i []).length)).filterMap fun j =>
      if (pixAt image i j : ℚ) > threshold then some (i, j) else none

/-- 8-connectivity of two distinct grid positions. -/
def adj8 (p q : Pos) : Bool :=
  (max p.1 q.1 - min p.1 q.1 ≤ 1) && (max p.2 q.2 - min p.2 q.2 ≤ 1) && !(p == q)

/-- Breadth-first growth of one connected foreground region: repeatedly
move every remaining pixel adjacent to the frontier into the region.
Returns the finished region and the untouched remainder; `fuel` bounds the
number of rounds (the caller passes more rounds than pixels, enough to
reach a fixpoint). -/
def growRegion : Nat → List Pos → List Pos → List Pos → List Pos × List Pos
  | 0, frontier, rest, acc => (acc ++ frontier, rest)
  | fuel + 1, frontier, rest, acc =>
      if frontier.isEmpty then (acc, rest)
      else
        let parts := rest.partition fun p => frontier.any fun q => adj8 p q
        growRegion fuel parts.1 parts.2 (acc ++ frontier)

/-- `cv2.findContours(..., RETR_EXTERNAL, ...)` modelled as the list of
8-connected components of the foreground pixel set. -/
def findRegions : Nat → List Pos → List (List Pos)
  | 0, _ => []
  | _ + 1, [] => []
  | fuel + 1, p :: rest =>
      let grown := growRegion (rest.length + 1) [p] rest []
      grown.1 :: findRegions fuel grown.2

/-- The 8 Moore neighborhood offsets `(row, col)` of a pixel, indexed
clockwise starting north (row axis points down, so clockwise is
N, NE, E, SE, S, SW, W, NW). -/
def mooreDelta : Nat → Int × Int
  | 0 => (-1, 0)
  | 1 => (-1, 1)
  | 2 => (0, 1)
  | 3 => (1, 1)
  | 4 => (1, 0)
  | 5 => (1, -1)
  | 6 => (0, -1)
  | _ => (-1, -1)

/-- Membership of an (integer-coordinate) point in a pixel set; points off
the grid are simply absent, i.e. background. -/
def memI (pts : List (Int × Int)) (p : Int × Int) : Bool := pts.any fun q => q == p

/-- The Moore direction index leading from `p` to its 8-neighbor `q`. -/
def dirFromTo (p q : Int × Int) : Nat :=
  ((List.range 8).find? fun k =>
    (p.1 + (mooreDelta k).1, p.2 + (mooreDelta k).2) == q).getD 0

/-- One step of Moore border following: scan the 8 neighbors of the current
boundary pixel `c` clockwise, starting just after its backtrack direction
`idx`; return the direction of the first region pixel found together with
the direction of the (background) neighbor examined immediately before it,
or `none` for an isolated pixel. -/
def mooreScan (pts : List (Int × Int)) (c : Int × Int) (idx : Nat) :
    Option (Nat × Nat) :=
  (List.range 8).foldl
    (fun acc k =>
      match acc with
      | some r => some r
      | none =>
          let d := (idx + 1 + k) % 8
          let n := (c.1 + (mooreDelta d).1, c.2 + (mooreDelta d).2)
          if memI pts n then some (d, (idx + k) % 8) else none)
    none

/-- The border-following walk: states are (pixel, backtrack-direction)
pairs, recorded in visit order in `seen`; the walk stops at the first
repeated state and the contour is the resulting cycle (the states from the
first occurrence of the repeated state onward).  `fuel` exceeds the number
of distinct states, so the fuel-out branch is unreachable. -/
def mooreGo (pts : List (Int × Int)) :
    Nat → (Int × Int) → Nat → List ((Int × Int) × Nat) → List (Int × Int)
  | 0, _, _, seen => seen.map Prod.fst
  | fuel + 1, c, idx, seen =>
      match mooreScan pts c idx with
      | none => seen.map Prod.fst
      | some (d, dPrev) =>
          let n := (c.1 + (mooreDelta d).1, c.2 + (mooreDelta d).2)
          let b := (c.1 + (mooreDelta dPrev).1, c.2 + (mooreDelta dPrev).2)
          let idxN := dirFromTo n b
          if seen.contains (n, idxN) then
            (seen.drop (seen.indexOf (n, idxN))).map Prod.fst
          else
            mooreGo pts fuel n idxN (seen ++ [(n, idxN)])

/-- The external contour of one 8-connected region, as
`cv2.findContours(..., RETR_EXTERNAL, ...)` computes it: Moore border
following started at the region's raster-first pixel, entered from the
west. -/
def traceContour (region : List Pos) : List (Int × Int) :=
  match region with
  | [] => []
  | q :: qs =>
      let s0 := qs.foldl
        (fun a r =>
          if Nat.blt r.1 a.1 || (r.1 == a.1 && Nat.blt r.2 a.2) then r else a) q
      let pts := region.map fun p => ((p.1 : Int), (p.2 : Int))
      let s := ((s0.1 : Int), (s0.2 : Int))
      mooreGo pts (8 * pts.length + 16) s 6 [(s, 6)]

/-- Twice the signed shoelace area of the closed contour polygon (points
are `(row, col)`, i.e. `(y, x)`). -/
def shoelaceDouble (contour : List (Int × Int)) : Int :=
  match contour with
  | [] => 0
  | p0 :: _ =>
      (contour.zip (contour.drop 1 ++ [p0])).foldl
        (fun a pq => a + (pq.1.2 * pq.2.1 - pq.2.2 * pq.1.1)) 0

/-- `cv2.contourArea` of a traced contour: the absolute Green-formula
(shoelace) area of the contour polygon.  For a filled w x h rectangle this
is (w-1)*(h-1), e.g. 81 for a 10x10 block and 121 for a 12x12 block. -/
def contourArea (contour : List (Int × Int)) : ℚ :=
  ((shoelaceDouble contour).natAbs : ℚ) / 2

/-- `cv2.boundingRect` of a contour: `(x, y, w, h)` from the column/row
extremes of its points (the traced boundary attains the region's
extremes). -/
def boundingRect (contour : List (Int × Int)) : Nat × Nat × Nat × Nat :=
  match contour with
  | [] => (0, 0, 0, 0)
  | p :: ps =>
      let x0 := ps.foldl (fun a q => min a q.2) p.2
      let y0 := ps.foldl (fun a q => min a q.1) p.1
      let x1 := ps.foldl (fun a q => max a q.2) p.2
      let y1 := ps.foldl (fun a q => max a q.1) p.1
      (x0.toNat, y0.toNat, (x1 - x0 + 1).toNat, (y1 - y0 + 1).toNat)

/-- Sum of the intensities of `gray[y:y+h, x:x+w]`. -/
def roiSum (image : Img) (x y w h : Nat) : Nat :=
  ((List.range h).map fun i =>
    ((List.range w).map fun j => pixAt image (y + i) (x + j)).sum).sum

/-- `np.mean` of the rectangle `gray[y:y+h, x:x+w]` (0 on an empty
rectangle; every use is on a nonempty one). -/
def roiMean (image : Img) (x y w h : Nat) : ℚ :=
  if w * h = 0 then 0 else (roiSum image x y w h : ℚ) / ((w * h : Nat) : ℚ)

/-- `ThermalDetector` from main.py (intensity threshold, default 200.0). -/
structure ThermalDetector where
  threshold : ℚ

/-- `ThermalDetector.detect` from main.py: binarize at `self.threshold`,
take the external contours of the connected foreground regions, drop
contours with `cv2.contourArea` below 100, score each surviving contour by
the mean intensity of its bounding rectangle over 255 clamped to 1, keep
it only if that confidence clears `confidence_threshold`, and emit a
HOTSPOT detection per contour. -/
def ThermalDetector.detect (self : ThermalDetector) (image : Img)
    (confidence_threshold : ℚ) : List Detection :=
  let fg := fgPixels image self.threshold
  let contours := (findRegions (fg.length + 1) fg).map traceContour
  contours.filterMap fun contour =>
    if contourArea contour < 100 then none
    else
      let r := boundingRect contour
      let x := r.1
      let y := r.2.1
      let w := r.2.2.1
      let h := r.2.2.2
      let confidence := min (roiMean image x y w h / 255) 1
      if confidence ≥ confidence_threshold then
        some { label := "hotspot"
             , confidence := confidence
             , boundingBox := { x := (x : Int), y := (y : Int)
                              , width := (w : Int), height := (h : Int) }
             , detectionType := .HOTSPOT
             , channel := none }
      else none

/-- Top and bottom row of the ring test image: 14 pixels of intensity
210. -/
def frameRow : List Nat := List.replicate 14 210

/-- Middle row of the ring test image: a 210 pixel on each side of 12
pixels of intensity 255. -/
def coreRow : List Nat := 210 :: List.replicate 12 255 ++ [210]

/-- A 14x14 thermal test image: a 12x12 core of intensity 255 surrounded by
a 1-pixel frame of intensity 210.  At threshold 200 the whole 14x14 square
is one region (contour area 13*13 = 169, bounding-box mean
47640/196, confidence about 0.953); at threshold 230 only the 12x12 core
remains (contour area 11*11 = 121, bounding-box mean 255, confidence 1). -/
def ringImg : Img :=
  frameRow :: List.replicate 12 coreRow ++ [frameRow]

/-- A concrete detection used to instantiate hypothesis-bearing theorems. -/
def sampleDetection : Detection :=
  { label := "smoke", confidence := 1/2, boundingBox := ⟨5, 6, 7, 8⟩
  , detectionType := .SMOKE, channel := none }

/-- A loaded YOLO model, opaque to the core: its inference call takes the
image and the confidence argument and yields the results list that
`format_detections` consumes. -/
structure YoloModel where
  run : Img → ℚ → List RawResult

/-- The possible values of the `thermal_model` global: the heuristic
detector or a learned YOLO model (`None` is handled by the caller). -/
inductive ThermalBackend
  | heuristic (detector : ThermalDetector)
  | yolo (model : YoloModel)

/-- The process-wide model globals of main.py that routing reads. -/
structure ServiceState where
  color_model : Option YoloModel
  thermal_model : Option ThermalBackend
  is_warmed_up : Bool

/-- `detect_color` from main.py: no loaded model means an empty list
(logged as an error, not raised); otherwise run the model and format. -/
def detect_color (st : ServiceState) (image : Img) (confidence_threshold : ℚ)
    (channel : Option String) : List Detection :=
  match st.color_model with
  | none => []
  | some model =>
      format_detections (model.run image confidence_threshold) confidence_threshold channel

/-- `detect_thermal` from main.py: empty list when no backend; the
heuristic path stamps the channel tag onto each detection; the learned
path formats the results and forces every detection type to HOTSPOT. -/
def detect_thermal (st : ServiceState) (image : Img) (confidence_threshold : ℚ)
    (channel : Option String) : List Detection :=
  match st.thermal_model with
  | none => []
  | some (.heuristic detector) =>
      (detector.detect image confidence_threshold).map fun det =>
        { det with channel := channel }
  | some (.yolo model) =>
      (format_detections (model.run image confidence_threshold) confidence_threshold
          channel).map fun det => { det with detectionType := .HOTSPOT }

/-- `detect_split` from main.py: split, run color on the first half and
thermal on the second, remap both against the original shape, and
concatenate color-then-thermal. -/
def detect_split (st : ServiceState) (image : Img) (layout : SplitLayout)
    (confidence_threshold : ℚ) : List Detection :=
  let original_shape := (imgHeight image, imgWidth image)
  let halves := split_frame image layout
  let color_detections := detect_color st halves.1 confidence_threshold (some "color")
  let thermal_detections := detect_thermal st halves.2 confidence_threshold (some "thermal")
  remap_bounding_boxes color_detections layout false original_shape
    ++ remap_bounding_boxes thermal_detections layout true original_shape

/-- `route_detection` from main.py: dispatch on the stream type; a missing
split layout defaults to LEFT_RIGHT; any unrecognized stream type falls
back to color detection. -/
def route_detection (st : ServiceState) (image : Img) (stream_type : StreamTypeArg)
    (split_layout : Option SplitLayout) (confidence_threshold : ℚ) : List Detection :=
  match stream_type with
  | .COLOR => detect_color st image confidence_threshold none
  | .THERMAL => detect_thermal st image confidence_threshold none
  | .SPLIT => detect_split st image (split_layout.getD .LEFT_RIGHT) confidence_threshold
  | .other => detect_color st image confidence_threshold none

/-- Error outcomes of the `/detect` endpoint that matter to routing. -/
inductive DetectError
  | serviceUnavailable
deriving DecidableEq

/-- The inference gate of the `/detect` endpoint (main.py lines 591-603):
when the service is warmed up and at least one model global is set, route
(with the stream type defaulting to COLOR); otherwise raise 503. -/
def detect_inference (st : ServiceState) (image : Img)
    (streamType : Option StreamTypeArg) (splitLayout : Option SplitLayout)
    (confidence_threshold : ℚ) : Except DetectError (List Detection) :=
  if st.is_warmed_up && (st.color_model.isSome || st.thermal_model.isSome) then
    Except.ok (route_detection st image (streamType.getD .COLOR) splitLayout
      confidence_threshold)
  else
    Except.error .serviceUnavailable

/-- The `detection_stats` dict and the `inference_times` global of
main.py, bundled into one state record.  Counters are Python ints
(`Int`), times and derived rates are floats (`ℚ`). -/
structure Stats where
  total_requests : Int
  detection_enabled_requests : Int
  total_detections : Int
  avg_inference_time : ℚ
  fps : ℚ
  inference_times : List ℚ
deriving DecidableEq

/-- The zero-initialized statistics state at process start. -/
def initStats : Stats :=
  { total_requests := 0, detection_enabled_requests := 0, total_detections := 0
  , avg_inference_time := 0, fps := 0, inference_times := [] }

/-- The last `n` elements of a list. -/
def lastN {α : Type} (n : Nat) (l : List α) : List α := l.drop (l.length - n)

/-- `update_stats` from main.py: always bump `total_requests`; when
detection was enabled, bump the enabled counter, accumulate the detection
count, append the latency and drop the oldest entry once the queue
exceeds 100, recompute the average over the retained queue, and recompute
fps from the last 10 latencies once at least 10 are held. -/
def update_stats (inference_time : ℚ) (detections_count : Int)
    (detection_enabled : Bool) (s : Stats) : Stats :=
  let s := { s with total_requests := s.total_requests + 1 }
  if detection_enabled then
    let times0 := s.inference_times ++ [inference_time]
    let times := if times0.length > 100 then times0.drop 1 else times0
    let avg := times.sum / (times.length : ℚ)
    let fps :=
      if times.length ≥ 10 then
        let recent_times := times.drop (times.length - 10)
        let avg_time := recent_times.sum / (recent_times.length : ℚ)
        if avg_time > 0 then 1 / avg_time else 0
      else s.fps
    { s with detection_enabled_requests := s.detection_enabled_requests + 1
           , total_detections := s.total_detections + detections_count
           , inference_times := times
           , avg_inference_time := avg
           , fps := fps }
  else s

/-- One recorded call `(inference_time, detections_count, enabled)`. -/
abbrev StatCall := ℚ × Int × Bool

/-- Fold a sequence of `update_stats` calls from the initial state. -/
def runStats (calls : List StatCall) : Stats :=
  calls.foldl (fun s c => update_stats c.1 c.2.1 c.2.2 s) initStats

/-- The inference times of the enabled calls, in order. -/
def enabledTimes (calls : List StatCall) : List ℚ :=
  calls.filterMap fun c => if c.2.2 then some c.1 else none

/-- Outcome of one `/detect` request after the preliminary stats update:
either inference succeeds with a latency and a detection count, or the
request fails somewhere between the preliminary update and the final one
(missing input, undecodable image, model not ready, inference error). -/
inductive DetectOutcome
  | ok (inference_time : ℚ) (detections_count : Int)
  | failAfterPrelim

/-- The statistics side effects of one `/detect` request (main.py lines
549-620): a preliminary `update_stats(0, 0, enabled)` whose
`total_requests` increment is immediately reverted by hand, then, on the
enabled path, either the real post-inference update or nothing when the
request errors out; on the disabled path one more disabled update with the
elapsed time. -/
def detect_stats_flow (s : Stats) (enabled : Bool) (disabled_elapsed : ℚ)
    (outcome : DetectOutcome) : Stats :=
  let s1 := update_stats 0 0 enabled s
  let s2 := { s1 with total_requests := s1.total_requests - 1 }
  if enabled then
    match outcome with
    | .ok t n => update_stats t n true s2
    | .failAfterPrelim => s2
  else
    update_stats disabled_elapsed 0 false s2

/-! ## Helper lemmas -/

theorem leadEq_of_append {n1 n2 h : List Char} (hl : leadEq (n1 ++ n2) h = true) :
    leadEq n1 h = true := by
  induction n1 generalizing h with
  | nil => rfl
  | cons a as ih =>
      cases h with
      | nil => simp [leadEq] at hl
      | cons b bs =>
          simp only [List.cons_append, leadEq, Bool.and_eq_true] at hl ⊢
          exact ⟨hl.1, ih hl.2⟩

theorem hasSub_of_append {n1 n2 h : List Char} (hs : hasSub (n1 ++ n2) h = true) :
    hasSub n1 h = true := by
  induction h with
  | nil =>
      simp only [hasSub] at hs ⊢
      exact leadEq_of_append hs
  | cons c cs ih =>
      simp only [hasSub, Bool.or_eq_true] at hs ⊢
      cases hs with
      | inl h1 => exact Or.inl (leadEq_of_append h1)
      | inr h2 => exact Or.inr (ih h2)

/-! ## C4: label classifier -/

set_option linter.unnecessarySeqFocus false in
/-- C4: `map_label_to_detection_type` is a case-insensitive substring match in
fixed priority order — "fire" → FIRE, else "smoke" → SMOKE, else "hot" →
HOTSPOT, else SMOKE (exactly the spec's `classifySpec`) — and in particular
classifies "Hot Fire Smoke" as FIRE, "hotzone" as HOTSPOT and "car" as
SMOKE. -/
theorem map_label_matches_classifySpec :
    (∀ label, map_label_to_detection_type label = classifySpec label) ∧
    map_label_to_detection_type "Hot Fire Smoke" = DetectionType.FIRE ∧
    map_label_to_detection_type "hotzone" = DetectionType.HOTSPOT ∧
    map_label_to_detection_type "car" = DetectionType.SMOKE := by
  refine ⟨fun label => ?_, by decide, by decide, by decide⟩
  unfold map_label_to_detection_type classifySpec
  cases hfire : hasSub "fire".data (lowerData label) <;>
    cases hsmoke : hasSub "smoke".data (lowerData label) <;>
      cases hhot : hasSub "hot".data (lowerData label) <;>
        simp only [hfire, hsmoke, hhot, Bool.false_or, Bool.or_true, if_true, if_false,
          Bool.or_false, cond_eq_if] <;>
        first
          | rfl
          | (have hbig : hasSub "hotspot".data (lowerData label) = false := by
               cases hbs : hasSub "hotspot".data (lowerData label)
               · rfl
               · have hbs2 : hasSub ("hot".data ++ "spot".data) (lowerData label)
                     = true := hbs
                 have : hasSub "hot".data (lowerData label) = true :=
                   hasSub_of_append hbs2
                 rw [this] at hhot
                 exact absurd hhot (by simp)
             simp [hbig])

/-! ## C1: coordinate remapper -/

theorem remap_one_id (layout : SplitLayout) (shape : Nat × Nat) (d : Detection) :
    remap_one layout false shape d = d := by
  cases layout <;> rfl

/-- C1: with `isSecondHalf = false` the remapper is the identity on the whole
detection list; with `isSecondHalf = true` it adds `width / 2` (floor) to each
box's `x` for LEFT_RIGHT and `height / 2` to each box's `y` for TOP_BOTTOM,
leaving box width/height and all other detection fields unchanged. -/
theorem remap_bounding_boxes_spec (detections : List Detection) (shape : Nat × Nat) :
    (∀ layout, remap_bounding_boxes detections layout false shape = detections) ∧
    remap_bounding_boxes detections .LEFT_RIGHT true shape =
      detections.map (fun d =>
        { d with boundingBox :=
            { d.boundingBox with x := d.boundingBox.x + ((shape.2 / 2 : Nat) : Int) } }) ∧
    remap_bounding_boxes detections .TOP_BOTTOM true shape =
      detections.map (fun d =>
        { d with boundingBox :=
            { d.boundingBox with y := d.boundingBox.y + ((shape.1 / 2 : Nat) : Int) } }) := by
  refine ⟨fun layout => ?_, rfl, rfl⟩
  induction detections with
  | nil => rfl
  | cons d ds ih =>
      simp only [remap_bounding_boxes, List.map_cons] at ih ⊢
      rw [remap_one_id, ih]

/-! ## C2: frame splitter -/

theorem split_LR_first (image : Img) :
    (split_frame image .LEFT_RIGHT).1
      = image.map (fun row => row.take (imgWidth image / 2)) := rfl

theorem split_LR_second (image : Img) :
    (split_frame image .LEFT_RIGHT).2
      = image.map (fun row => row.drop (imgWidth image / 2)) := rfl

theorem split_TB_first (image : Img) :
    (split_frame image .TOP_BOTTOM).1 = image.take (imgHeight image / 2) := rfl

theorem split_TB_second (image : Img) :
    (split_frame image .TOP_BOTTOM).2 = image.drop (imgHeight image / 2) := rfl

/-- C2: LEFT_RIGHT splits at column `mid = width / 2` (floor): the first half
holds columns `[0, mid)` and the second half holds columns `[mid, width)`;
TOP_BOTTOM does the same on rows at `mid = height / 2`; for odd sizes the
larger remainder lands in the second half.  All equations hold for every
frame, including 0/1-pixel dimensions (the splitter is total and
error-free). -/
theorem split_frame_spec (image : Img) :
    (∀ i j, j < imgWidth image / 2 →
        cellAt (split_frame image .LEFT_RIGHT).1 i j = cellAt image i j) ∧
    (∀ i j, cellAt (split_frame image .LEFT_RIGHT).2 i j
        = cellAt image i (imgWidth image / 2 + j)) ∧
    ((∀ row ∈ image, row.length = imgWidth image) →
        (∀ row ∈ (split_frame image .LEFT_RIGHT).1,
            row.length = imgWidth image / 2) ∧
        (∀ row ∈ (split_frame image .LEFT_RIGHT).2,
            row.length = imgWidth image - imgWidth image / 2)) ∧
    (∀ i, i < imgHeight image / 2 →
        (split_frame image .TOP_BOTTOM).1[i]? = image[i]?) ∧
    (∀ i, (split_frame image .TOP_BOTTOM).2[i]? = image[imgHeight image / 2 + i]?) ∧
    (split_frame image .TOP_BOTTOM).1.length = imgHeight image / 2 ∧
    (split_frame image .TOP_BOTTOM).2.length
      = imgHeight image - imgHeight image / 2 ∧
    imgWidth image - imgWidth image / 2
      = imgWidth image / 2 + imgWidth image % 2 ∧
    imgHeight image - imgHeight image / 2
      = imgHeight image / 2 + imgHeight image % 2 := by
  refine ⟨?_, ?_, ?_, ?_, ?_, ?_, ?_, by omega, by omega⟩
  · intro i j hj
    rw [split_LR_first]
    simp only [cellAt, List.getElem?_map]
    cases image[i]? with
    | none => rfl
    | some row => simp [List.getElem?_take_of_lt hj]
  · intro i j
    rw [split_LR_second]
    simp only [cellAt, List.getElem?_map]
    cases image[i]? with
    | none => rfl
    | some row => simp [List.getElem?_drop]
  · intro hw
    constructor
    · intro row hrow
      rw [split_LR_first] at hrow
      obtain ⟨r, hr, hrt⟩ := List.mem_map.mp hrow
      subst hrt
      rw [List.length_take, hw r hr]
      exact Nat.min_eq_left (Nat.div_le_self _ _)
    · intro row hrow
      rw [split_LR_second] at hrow
      obtain ⟨r, hr, hrt⟩ := List.mem_map.mp hrow
      subst hrt
      rw [List.length_drop, hw r hr]
  · intro i hi
    rw [split_TB_first]
    exact List.getElem?_take_of_lt hi
  · intro i
    rw [split_TB_second]
    exact List.getElem?_drop _ _ _
  · rw [split_TB_first, List.length_take]
    exact Nat.min_eq_left (Nat.div_le_self _ _)
  · rw [split_TB_second, List.length_drop]
    rfl

theorem split_frame_spec_witness :
    0 < imgWidth [[1, 2, 3], [4, 5, 6]] / 2 ∧
    cellAt (split_frame [[1, 2, 3], [4, 5, 6]] .LEFT_RIGHT).1 0 0
      = cellAt [[1, 2, 3], [4, 5, 6]] 0 0 ∧
    cellAt (split_frame [[1, 2, 3], [4, 5, 6]] .LEFT_RIGHT).2 0 1
      = cellAt [[1, 2, 3], [4, 5, 6]] 0 (imgWidth [[1, 2, 3], [4, 5, 6]] / 2 + 1) ∧
    (∀ row ∈ [[1, 2, 3], [4, 5, 6]], row.length = imgWidth [[1, 2, 3], [4, 5, 6]]) ∧
    [(1 : Nat)].length = imgWidth [[1, 2, 3], [4, 5, 6]] / 2 ∧
    0 < imgHeight [[1, 2, 3], [4, 5, 6]] / 2 ∧
    (split_frame [[1, 2, 3], [4, 5, 6]] .TOP_BOTTOM).1[0]?
      = [[1, 2, 3], [4, 5, 6]][0]? :=
  ⟨by decide,
   (split_frame_spec [[1, 2, 3], [4, 5, 6]]).1 0 0 (by decide),
   (split_frame_spec [[1, 2, 3], [4, 5, 6]]).2.1 0 1,
   by decide,
   ((split_frame_spec [[1, 2, 3], [4, 5, 6]]).2.2.1 (by decide)).1 [1] (by decide),
   by decide,
   (split_frame_spec [[1, 2, 3], [4, 5, 6]]).2.2.2.1 0 (by decide)⟩

/-! ## C3 and C5 helpers -/

theorem all_filterMap_eq_true {α β : Type} (l : List α) (f : α → Option β)
    (p : β → Bool) (h : ∀ a b, f a = some b → p b = true) :
    (l.filterMap f).all p = true := by
  induction l with
  | nil => rfl
  | cons a as ih =>
      cases hfa : f a with
      | none => simpa [List.filterMap_cons, hfa] using ih
      | some b => simp [List.filterMap_cons, hfa, List.all_cons, h a b hfa, ih]

theorem format_detections_channel (results : List RawResult) (t : ℚ)
    (ch : Option String) :
    ((format_detections results t ch).all fun d => d.channel == ch) = true := by
  cases results with
  | nil => rfl
  | cons r rs =>
      refine all_filterMap_eq_true _ _ _ (fun b d hbd => ?_)
      by_cases hc : b.conf ≥ t
      · rw [if_pos hc] at hbd
        injection hbd with he
        subst he
        simp
      · rw [if_neg hc] at hbd
        simp at hbd

/-! ## C3: detection router dispatch -/

/-- C3: a COLOR request delegates entirely to the color detector with channel
tag none (and every returned detection carries channel none); an unknown
stream type behaves identically to COLOR; a SPLIT request without a layout
behaves identically to SPLIT with LEFT_RIGHT. -/
theorem route_detection_spec (st : ServiceState) (image : Img)
    (layout : Option SplitLayout) (t : ℚ) :
    route_detection st image .COLOR layout t = detect_color st image t none ∧
    ((route_detection st image .COLOR layout t).all fun d => d.channel == none)
      = true ∧
    route_detection st image .other layout t
      = route_detection st image .COLOR layout t ∧
    route_detection st image .SPLIT none t
      = route_detection st image .SPLIT (some .LEFT_RIGHT) t := by
  refine ⟨rfl, ?_, rfl, rfl⟩
  show ((detect_color st image t none).all fun d => d.channel == none) = true
  unfold detect_color
  cases st.color_model with
  | none => rfl
  | some m => exact format_detections_channel _ _ _

/-! ## C5: adapter confidence filtering -/

/-- C5: every detection produced by the general detector's result formatter,
and every detection produced by the thermal heuristic detector, has
confidence at least the supplied confidence threshold. -/
theorem confidence_filter_spec (results : List RawResult) (t : ℚ)
    (ch : Option String) (det : ThermalDetector) (image : Img) :
    ((format_detections results t ch).all fun d => decide (t ≤ d.confidence))
      = true ∧
    ((det.detect image t).all fun d => decide (t ≤ d.confidence)) = true := by
  constructor
  · cases results with
    | nil => rfl
    | cons r rs =>
        refine all_filterMap_eq_true _ _ _ (fun b d hbd => ?_)
        by_cases hc : b.conf ≥ t
        · rw [if_pos hc] at hbd
          injection hbd with he
          subst he
          simpa using hc
        · rw [if_neg hc] at hbd
          simp at hbd
  · refine all_filterMap_eq_true _ _ _ (fun contour d hcd => ?_)
    dsimp only at hcd
    split at hcd
    · simp at hcd
    · split at hcd
      · injection hcd with he
        subst he
        rename_i hge
        simpa using hge
      · simp at hcd

/-! ## C6: statistics aggregator -/

theorem lastN_length_le {α : Type} (n : Nat) (l : List α) : (lastN n l).length ≤ n := by
  simp only [lastN, List.length_drop]
  omega

theorem lastN_of_length_le {α : Type} {n : Nat} {l : List α} (h : l.length ≤ n) :
    lastN n l = l := by
  simp [lastN, Nat.sub_eq_zero_of_le h]

theorem lastN_append {α : Type} (n : Nat) (a b : List α) :
    lastN n (lastN n a ++ b) = lastN n (a ++ b) := by
  by_cases h : a.length ≤ n
  · rw [lastN_of_length_le h]
  · push_neg at h
    have hk : a.length - (a.length - n) = n := by omega
    simp only [lastN, List.length_append, List.length_drop, hk]
    have h2 : n + b.length - n = b.length := by omega
    rw [h2, List.drop_append_eq_append_drop, List.drop_append_eq_append_drop,
      List.drop_drop]
    simp only [List.length_drop, hk]
    congr 1
    · congr 1
      omega
    · congr 1
      omega

theorem update_stats_times (s : Stats) (t : ℚ) (n : Int)
    (h : s.inference_times.length ≤ 100) :
    (update_stats t n true s).inference_times
      = lastN 100 (s.inference_times ++ [t]) := by
  have hred : (update_stats t n true s).inference_times
      = (if (s.inference_times ++ [t]).length > 100
         then (s.inference_times ++ [t]).drop 1
         else s.inference_times ++ [t]) := rfl
  rw [hred]
  by_cases hq : (s.inference_times ++ [t]).length > 100
  · rw [if_pos hq]
    have h1 : (s.inference_times ++ [t]).length - 100 = 1 := by
      simp only [List.length_append, List.length_cons, List.length_nil] at hq ⊢
      omega
    unfold lastN
    rw [h1]
  · rw [if_neg hq, lastN_of_length_le (by omega)]

theorem runStats_times_go (calls : List StatCall) :
    ∀ (s : Stats) (ts : List ℚ), s.inference_times = lastN 100 ts →
      (calls.foldl (fun s c => update_stats c.1 c.2.1 c.2.2 s) s).inference_times
        = lastN 100 (ts ++ enabledTimes calls) := by
  induction calls with
  | nil =>
      intro s ts hs
      simpa [enabledTimes] using hs
  | cons c rest ih =>
      intro s ts hs
      obtain ⟨t, n, enabled⟩ := c
      cases enabled with
      | false =>
          simp only [List.foldl_cons]
          rw [show enabledTimes ((t, n, false) :: rest) = enabledTimes rest from rfl]
          exact ih _ ts
            (by rw [show (update_stats t n false s).inference_times
                      = s.inference_times from rfl]; exact hs)
      | true =>
          simp only [List.foldl_cons]
          have hlen : s.inference_times.length ≤ 100 := by
            rw [hs]; exact lastN_length_le _ _
          have hstep : (update_stats t n true s).inference_times
              = lastN 100 (ts ++ [t]) := by
            rw [update_stats_times s t n hlen, hs, lastN_append]
          rw [ih _ (ts ++ [t]) hstep,
            show enabledTimes ((t, n, true) :: rest) = t :: enabledTimes rest from rfl,
            List.append_assoc]
          rfl

theorem runStats_times (calls : List StatCall) :
    (runStats calls).inference_times = lastN 100 (enabledTimes calls) := by
  simpa [runStats] using runStats_times_go calls initStats [] rfl

/-- C6: one enabled `record` call increments `detectionEnabledRequests`, adds
the detection count to `totalDetections`, appends the latency and drops the
oldest entry when the queue would exceed 100 (so the queue is always the
last 100 enabled latencies and never exceeds 100 entries after any call
sequence), recomputes `avgInferenceTime` as the mean of the retained window,
and recomputes `fps` as `1 / mean(last 10 latencies)` (0 when that mean is 0)
only when the window holds at least 10 samples, leaving it unchanged
otherwise. -/
theorem update_stats_spec :
    (∀ (s : Stats) (t : ℚ) (n : Int),
        (update_stats t n true s).detection_enabled_requests
          = s.detection_enabled_requests + 1 ∧
        (update_stats t n true s).total_detections = s.total_detections + n) ∧
    (∀ (s : Stats) (t : ℚ) (n : Int), s.inference_times.length ≤ 100 →
        (update_stats t n true s).inference_times
          = lastN 100 (s.inference_times ++ [t])) ∧
    (∀ calls : List StatCall,
        (runStats calls).inference_times = lastN 100 (enabledTimes calls) ∧
        (runStats calls).inference_times.length ≤ 100) ∧
    (∀ (s : Stats) (t : ℚ) (n : Int),
        (update_stats t n true s).avg_inference_time
          = ((update_stats t n true s).inference_times).sum
              / (((update_stats t n true s).inference_times).length : ℚ)) ∧
    (∀ (s : Stats) (t : ℚ) (n : Int),
        (update_stats t n true s).inference_times.length < 10 →
        (update_stats t n true s).fps = s.fps) ∧
    (∀ (s : Stats) (t : ℚ) (n : Int),
        10 ≤ (update_stats t n true s).inference_times.length →
        (∀ x ∈ lastN 10 ((update_stats t n true s).inference_times), 0 ≤ x) →
        (update_stats t n true s).fps =
          (if (lastN 10 ((update_stats t n true s).inference_times)).sum
                / ((lastN 10 ((update_stats t n true s).inference_times)).length : ℚ)
              = 0
           then 0
           else 1 / ((lastN 10 ((update_stats t n true s).inference_times)).sum
                / ((lastN 10 ((update_stats t n true s).inference_times)).length : ℚ)))) := by
  refine ⟨fun s t n => ⟨rfl, rfl⟩, fun s t n h => update_stats_times s t n h,
    fun calls => ⟨runStats_times calls, ?_⟩, fun s t n => rfl, fun s t n h => ?_,
    fun s t n h10 hnn => ?_⟩
  · rw [runStats_times calls]
    exact lastN_length_le _ _
  · have hred : (update_stats t n true s).fps
        = (if 10 ≤ (update_stats t n true s).inference_times.length
           then
             (if (lastN 10 ((update_stats t n true s).inference_times)).sum
                  / ((lastN 10 ((update_stats t n true s).inference_times)).length : ℚ)
                 > 0
              then 1 / ((lastN 10 ((update_stats t n true s).inference_times)).sum
                  / ((lastN 10 ((update_stats t n true s).inference_times)).length : ℚ))
              else 0)
           else s.fps) := rfl
    rw [hred, if_neg (by omega)]
  · have hred : (update_stats t n true s).fps
        = (if 10 ≤ (update_stats t n true s).inference_times.length
           then
             (if (lastN 10 ((update_stats t n true s).inference_times)).sum
                  / ((lastN 10 ((update_stats t n true s).inference_times)).length : ℚ)
                 > 0
              then 1 / ((lastN 10 ((update_stats t n true s).inference_times)).sum
                  / ((lastN 10 ((update_stats t n true s).inference_times)).length : ℚ))
              else 0)
           else s.fps) := rfl
    rw [hred, if_pos h10]
    have hm : 0 ≤ (lastN 10 ((update_stats t n true s).inference_times)).sum
        / ((lastN 10 ((update_stats t n true s).inference_times)).length : ℚ) :=
      div_nonneg (List.sum_nonneg hnn) (Nat.cast_nonneg _)
    rcases eq_or_lt_of_le hm with h0 | hpos
    · rw [if_neg (by rw [← h0]; exact lt_irrefl 0), if_pos h0.symm]
    · rw [if_pos hpos, if_neg (ne_of_gt hpos)]

theorem update_stats_spec_witness :
    initStats.inference_times.length ≤ 100 ∧
    (update_stats 1 0 true initStats).inference_times
      = lastN 100 (initStats.inference_times ++ [1]) ∧
    (update_stats 1 0 true initStats).inference_times.length < 10 ∧
    (update_stats 1 0 true initStats).fps = initStats.fps ∧
    10 ≤ (update_stats 1 0 true
        { initStats with inference_times := List.replicate 10 1 }).inference_times.length ∧
    (∀ x ∈ lastN 10 ((update_stats 1 0 true
        { initStats with inference_times := List.replicate 10 1 }).inference_times),
      0 ≤ x) ∧
    (update_stats 1 0 true
        { initStats with inference_times := List.replicate 10 1 }).fps =
      (if (lastN 10 ((update_stats 1 0 true
              { initStats with inference_times := List.replicate 10 1 }).inference_times)).sum
            / ((lastN 10 ((update_stats 1 0 true
              { initStats with inference_times := List.replicate 10 1 }).inference_times)).length : ℚ)
          = 0
       then 0
       else 1 / ((lastN 10 ((update_stats 1 0 true
              { initStats with inference_times := List.replicate 10 1 }).inference_times)).sum
            / ((lastN 10 ((update_stats 1 0 true
              { initStats with inference_times := List.replicate 10 1 }).inference_times)).length : ℚ))) :=
  ⟨by decide,
   update_stats_spec.2.1 initStats 1 0 (by decide),
   by decide,
   update_stats_spec.2.2.2.2.1 initStats 1 0 (by decide),
   by decide,
   by decide,
   update_stats_spec.2.2.2.2.2 { initStats with inference_times := List.replicate 10 1 }
     1 0 (by decide) (by decide)⟩

/-! ## C9: remap never mutates its input -/

theorem remap_heap_go (layout : SplitLayout) (second : Bool) (shape : Nat × Nat)
    (heap : List Detection) :
    ∀ (addrs : List Nat) (extra : List Detection) (out : List Nat),
      (∀ a ∈ addrs, a < heap.length) →
      addrs.foldl
        (fun acc a =>
          let detection := acc.1.getD a default
          (acc.1 ++ [remap_one layout second shape detection],
           acc.2 ++ [acc.1.length]))
        (heap ++ extra, out)
      = (heap ++ (extra
           ++ addrs.map (fun a => remap_one layout second shape (heap.getD a default))),
         out ++ List.range' (heap.length + extra.length) addrs.length) := by
  intro addrs
  induction addrs with
  | nil =>
      intro extra out _
      simp
  | cons a rest ih =>
      intro extra out h
      have ha : a < heap.length := h a (List.mem_cons_self a rest)
      simp only [List.foldl_cons]
      have hread : (heap ++ extra).getD a default = heap.getD a default := by
        simp only [List.getD_eq_getElem?_getD, List.getElem?_append_left ha]
      rw [hread, List.length_append, List.append_assoc]
      rw [ih (extra ++ [remap_one layout second shape (heap.getD a default)])
        (out ++ [heap.length + extra.length]) (fun b hb => h b (List.mem_cons_of_mem a hb))]
      simp only [List.map_cons, List.length_append, List.length_cons, List.length_nil,
        List.append_assoc, List.singleton_append, List.range'_succ, Prod.mk.injEq,
        Nat.add_zero, Nat.add_assoc]

/-- C9: the remapper has value-copy semantics — run on a heap of detection
objects it leaves every existing heap cell unchanged (the result heap is the
input heap extended with freshly allocated cells only) and returns a new
list of fresh addresses whose cells are exactly the pure `remap` of the
input detections. -/
theorem remap_value_copy (heap : List Detection) (addrs : List Nat)
    (layout : SplitLayout) (second : Bool) (shape : Nat × Nat)
    (h : ∀ a ∈ addrs, a < heap.length) :
    (remap_bounding_boxes_heap heap addrs layout second shape).1
      = heap ++ remap_bounding_boxes
          (addrs.map fun a => heap.getD a default) layout second shape ∧
    (remap_bounding_boxes_heap heap addrs layout second shape).2
      = List.range' heap.length addrs.length := by
  have hgo := remap_heap_go layout second shape heap addrs [] [] h
  simp only [List.append_nil, List.length_nil, Nat.add_zero, List.nil_append] at hgo
  unfold remap_bounding_boxes_heap
  rw [hgo]
  refine ⟨?_, rfl⟩
  unfold remap_bounding_boxes
  rw [List.map_map]
  rfl

theorem remap_value_copy_witness :
    (remap_bounding_boxes_heap [sampleDetection] [0] .LEFT_RIGHT true (4, 6)).1
      = [sampleDetection]
          ++ remap_bounding_boxes [sampleDetection] .LEFT_RIGHT true (4, 6) ∧
    (remap_bounding_boxes_heap [sampleDetection] [0] .LEFT_RIGHT true (4, 6)).2
      = List.range' 1 1 :=
  remap_value_copy [sampleDetection] [0] .LEFT_RIGHT true (4, 6) (by decide)

/-! ## C10: the endpoint's double statistics update -/

/-- C10: on an enabled `/detect` request the statistics are touched twice
(a preliminary `update_stats(0, 0, enabled)` whose `totalRequests` increment
is reverted by hand, then the real update): a successful request bumps
`totalRequests` by exactly 1 but `detectionEnabledRequests` by 2 and appends
two latency entries, the first being 0.0; a request failing after the
preliminary update keeps the enabled increment and the 0.0 sample while
`totalRequests` is unchanged, so `detectionEnabledRequests` can exceed
`totalRequests`. -/
theorem detect_stats_double_update :
    (∀ (s : Stats) (te t : ℚ) (n : Int), s.inference_times.length ≤ 100 →
        (detect_stats_flow s true te (.ok t n)).total_requests
          = s.total_requests + 1 ∧
        (detect_stats_flow s true te (.ok t n)).detection_enabled_requests
          = s.detection_enabled_requests + 2 ∧
        (detect_stats_flow s true te (.ok t n)).inference_times
          = lastN 100 (s.inference_times ++ [0, t])) ∧
    (∀ (s : Stats) (te : ℚ), s.inference_times.length ≤ 100 →
        (detect_stats_flow s true te .failAfterPrelim).total_requests
          = s.total_requests ∧
        (detect_stats_flow s true te .failAfterPrelim).detection_enabled_requests
          = s.detection_enabled_requests + 1 ∧
        (detect_stats_flow s true te .failAfterPrelim).inference_times
          = lastN 100 (s.inference_times ++ [0])) ∧
    (detect_stats_flow initStats true 0 .failAfterPrelim).total_requests
      < (detect_stats_flow initStats true 0 .failAfterPrelim).detection_enabled_requests := by
  refine ⟨fun s te t n h => ?_, fun s te h => ?_, by decide⟩
  · have hflow : detect_stats_flow s true te (.ok t n)
        = update_stats t n true
            { update_stats 0 0 true s with
                total_requests := (update_stats 0 0 true s).total_requests - 1 } := rfl
    have h1 : (update_stats 0 0 true s).inference_times
        = lastN 100 (s.inference_times ++ [0]) := update_stats_times s 0 0 h
    have h2 : ({ update_stats 0 0 true s with
        total_requests := (update_stats 0 0 true s).total_requests - 1
          } : Stats).inference_times.length ≤ 100 := by
      show (update_stats 0 0 true s).inference_times.length ≤ 100
      rw [h1]
      exact lastN_length_le _ _
    refine ⟨?_, ?_, ?_⟩
    · show ((update_stats 0 0 true s).total_requests - 1) + 1 = s.total_requests + 1
      rw [show (update_stats 0 0 true s).total_requests = s.total_requests + 1 from rfl]
      omega
    · show ((update_stats 0 0 true s).detection_enabled_requests) + 1
        = s.detection_enabled_requests + 2
      rw [show (update_stats 0 0 true s).detection_enabled_requests
            = s.detection_enabled_requests + 1 from rfl]
      omega
    · rw [hflow, update_stats_times _ t n h2]
      show lastN 100 ((update_stats 0 0 true s).inference_times ++ [t]) = _
      rw [h1, lastN_append, List.append_assoc]
      rfl
  · have h1 : (update_stats 0 0 true s).inference_times
        = lastN 100 (s.inference_times ++ [0]) := update_stats_times s 0 0 h
    refine ⟨?_, rfl, h1⟩
    show ((update_stats 0 0 true s).total_requests - 1) = s.total_requests
    rw [show (update_stats 0 0 true s).total_requests = s.total_requests + 1 from rfl]
    omega

theorem detect_stats_double_update_witness :
    initStats.inference_times.length ≤ 100 ∧
    (detect_stats_flow initStats true 0 (.ok 1 2)).total_requests
      = initStats.total_requests + 1 ∧
    (detect_stats_flow initStats true 0 (.ok 1 2)).detection_enabled_requests
      = initStats.detection_enabled_requests + 2 ∧
    (detect_stats_flow initStats true 0 (.ok 1 2)).inference_times
      = lastN 100 (initStats.inference_times ++ [0, 1]) ∧
    (detect_stats_flow initStats true 0 .failAfterPrelim).total_requests
      = initStats.total_requests :=
  ⟨by decide,
   (detect_stats_double_update.1 initStats 0 1 2 (by decide)).1,
   (detect_stats_double_update.1 initStats 0 1 2 (by decide)).2.1,
   (detect_stats_double_update.1 initStats 0 1 2 (by decide)).2.2,
   (detect_stats_double_update.2.1 initStats 0 (by decide)).1⟩

/-! ## C7: no per-backend BackendUnavailable signal (corrected) -/

/-- C7 counterexample: with no color model loaded but a warmed-up service
holding a thermal backend, a COLOR request does not signal any
backend-unavailable error — it succeeds with an empty detection list. -/
theorem backend_unavailable_cex :
    detect_inference
        { color_model := none
        , thermal_model := some (.heuristic ⟨200⟩)
        , is_warmed_up := true }
        [[0]] (some .COLOR) none (1/4)
      = Except.ok [] := rfl

/-- C7 amended: a routing call whose backend is not loaded returns an empty
detection list as a successful result (the pipeline logs and swallows the
condition); the endpoint raises its service-unavailable error only when the
service is not warmed up or no backend at all is loaded. -/
theorem backend_unavailable_amended (st : ServiceState) (image : Img)
    (streamType : Option StreamTypeArg) (layout : Option SplitLayout) (t : ℚ) :
    (st.color_model = none → route_detection st image .COLOR layout t = []) ∧
    (st.thermal_model = none → route_detection st image .THERMAL layout t = []) ∧
    (detect_inference st image streamType layout t
        = Except.error .serviceUnavailable
      ↔ (st.is_warmed_up && (st.color_model.isSome || st.thermal_model.isSome))
          = false) := by
  refine ⟨fun hc => ?_, fun ht => ?_, ?_⟩
  · show detect_color st image t none = []
    unfold detect_color
    rw [hc]
  · show detect_thermal st image t none = []
    unfold detect_thermal
    rw [ht]
  · unfold detect_inference
    by_cases hcond :
        (st.is_warmed_up && (st.color_model.isSome || st.thermal_model.isSome)) = true
    · rw [if_pos hcond]
      simp [hcond]
    · rw [if_neg hcond]
      simp only [Bool.not_eq_true] at hcond
      simp [hcond]

theorem backend_unavailable_amended_witness :
    route_detection
        { color_model := none, thermal_model := none, is_warmed_up := false }
        [[0]] .COLOR none 1 = [] ∧
    route_detection
        { color_model := none, thermal_model := none, is_warmed_up := false }
        [[0]] .THERMAL none 1 = [] :=
  ⟨(backend_unavailable_amended
      { color_model := none, thermal_model := none, is_warmed_up := false }
      [[0]] none none 1).1 rfl,
   (backend_unavailable_amended
      { color_model := none, thermal_model := none, is_warmed_up := false }
      [[0]] none none 1).2.1 rfl⟩

/-! ## C8: thermal threshold monotonicity (corrected) -/

set_option maxRecDepth 400000 in
set_option maxHeartbeats 8000000 in
unseal Rat.mul Rat.inv Rat.add Rat.sub in
/-- C8 counterexample: on `ringImg` with confidence threshold 0.97, raising
the intensity threshold from 200 to 230 shrinks the single foreground
region from the full 14x14 square (bounding-box mean about 243, confidence
about 0.953 < 0.97, so it is dropped) to its bright 12x12 core (contour
area 121, clearing the area-100 filter; bounding-box mean 255, confidence
1 >= 0.97), so the number of detections returned by the thermal heuristic
increases from 0 to 1. -/
theorem thermal_monotonicity_cex :
    (200 : ℚ) ≤ 230 ∧
    ((ThermalDetector.mk 200).detect ringImg (97/100)).length = 0 ∧
    ((ThermalDetector.mk 230).detect ringImg (97/100)).length = 1 := by decide

/-- C8 amended: increasing the intensity threshold never adds foreground
pixels — the binarized mask is pointwise antitone in the threshold — but the
number of detections returned is not antitone: shrinking a region can raise
the mean intensity of its bounding rectangle past the confidence threshold
(see the counterexample), and removing bridge pixels can split one region
into several. -/
theorem thermal_foreground_antitone (image : Img) (t1 t2 : ℚ) (p : Pos)
    (h12 : t1 ≤ t2) (hp : p ∈ fgPixels image t2) : p ∈ fgPixels image t1 := by
  unfold fgPixels at hp ⊢
  simp only [List.mem_flatMap, List.mem_filterMap, List.mem_range] at hp ⊢
  obtain ⟨i, hi, j, hj, hcond⟩ := hp
  refine ⟨i, hi, j, hj, ?_⟩
  by_cases hgt : (pixAt image i j : ℚ) > t2
  · rw [if_pos hgt] at hcond
    rw [if_pos (lt_of_le_of_lt h12 hgt)]
    exact hcond
  · rw [if_neg hgt] at hcond
    simp at hcond

theorem thermal_foreground_antitone_witness :
    (0 : ℚ) ≤ 1 ∧ ((0, 0) : Pos) ∈ fgPixels [[255]] 1 ∧
    ((0, 0) : Pos) ∈ fgPixels [[255]] 0 :=
  ⟨by norm_num, by decide,
   thermal_foreground_antitone [[255]] 0 1 (0, 0) (by norm_num) (by decide)⟩

end LaraAI
